import Mathlib

/-!
Verification development for the Quiet-RSS feed synchronization engine.

The definitions below are a shallow embedding of the TypeScript sources:
  * `packages/types/src/*`       — the data model (Feed, Article, RefreshResult, ...)
  * the RSS parser class         — URL validation, bounded retries, error
    classification, normalization of raw feed items
  * `packages/core/src/managers/feed-manager.ts` — addFeed / refreshFeed /
    refreshAllFeeds over a storage collaborator

External collaborators are modelled as explicit parameters:
  * the network (`rss-parser`'s `parseURL`) as a function from attempt number
    to an outcome (a raw feed document or a thrown error value with optional
    HTTP status / error code / message);
  * the JS `URL` constructor as a partial function returning protocol+hostname;
  * `Date.now()` as a `Nat` parameter; `generateId` as a function from call
    index to string;
  * storage saves as either succeeding or throwing a given message
    (each save is atomic per call, per the storage contract).

Asynchrony is modelled as the cooperative single-threaded interleaving the
design describes: a batch refresh is the sequential fan-out over active feeds,
each step re-reading the latest state.
-/

deriving instance DecidableEq for Except

namespace QuietRSS

/-! ## Data model (packages/types) -/

inductive RSSErrorType where
  | NETWORK_ERROR
  | TIMEOUT_ERROR
  | PARSE_ERROR
  | INVALID_URL
  | NOT_FOUND
  | ACCESS_DENIED
  | SERVER_ERROR
deriving DecidableEq, Repr

/-- The string value of each enum member in `RSSErrorType` (the TS enum values). -/
def RSSErrorType.str : RSSErrorType → String
  | .NETWORK_ERROR => "NETWORK_ERROR"
  | .TIMEOUT_ERROR => "TIMEOUT_ERROR"
  | .PARSE_ERROR => "PARSE_ERROR"
  | .INVALID_URL => "INVALID_URL"
  | .NOT_FOUND => "NOT_FOUND"
  | .ACCESS_DENIED => "ACCESS_DENIED"
  | .SERVER_ERROR => "SERVER_ERROR"

structure ParsedArticle where
  title : String
  content : String
  summary : Option String
  url : String
  publishedAt : Nat
  author : Option String
  guid : Option String
deriving DecidableEq, Repr

structure ParsedFeed where
  title : String
  description : Option String
  url : String
  favicon : Option String
  articles : List ParsedArticle
deriving DecidableEq, Repr

/-- Stored article entity (`packages/types/src/article.ts`, `src/unnamed/part_012`).
Note: the stored shape has no `guid` field. -/
structure Article where
  id : String
  feedId : String
  title : String
  content : String
  summary : Option String
  url : String
  publishedAt : Nat
  isRead : Bool
  isStarred : Bool
  author : Option String
deriving DecidableEq, Repr

structure Feed where
  id : String
  title : String
  url : String
  description : Option String
  categoryId : Option String
  lastUpdated : Nat
  lastFetched : Option Nat
  favicon : Option String
  unreadCount : Nat
  totalCount : Nat
  isActive : Bool
  refreshInterval : Option Nat
deriving DecidableEq, Repr

structure FeedCreatePayload where
  url : String
  categoryId : Option String
  customTitle : Option String
deriving DecidableEq, Repr

structure RefreshResult where
  feedId : String
  success : Bool
  newArticleCount : Nat
  error : Option String
deriving DecidableEq, Repr

structure BatchRefreshResult where
  results : List RefreshResult
  totalNew : Nat
  totalErrors : Nat
deriving DecidableEq, Repr

structure FeedValidationResult where
  isValid : Bool
  feedType : Option Bool
  title : Option String
  error : Option String
  errorType : Option RSSErrorType
  statusCode : Option Nat
deriving DecidableEq, Repr

structure RSSParserConfig where
  timeout : Option Nat := none
  maxRetries : Option Nat := none
  retryDelay : Option Nat := none
  userAgent : Option String := none
deriving DecidableEq, Repr

structure RSSParsingError where
  message : String
  etype : RSSErrorType
  statusCode : Option Nat
deriving DecidableEq, Repr

/-! ## External collaborator model -/

/-- Result of the JS `URL` constructor: protocol (with trailing colon) and
hostname; `none` models the constructor throwing on a malformed URL. -/
structure UrlParts where
  protocol : String
  hostname : String
deriving DecidableEq, Repr

/-- The error value thrown by a failed `parseURL` attempt: optional HTTP
status, optional network error code (`ENOTFOUND`, ...), and `error.message`. -/
structure FetchError where
  status : Option Nat
  code : Option String
  message : String
deriving DecidableEq, Repr

/-- A raw feed item as returned by the external `rss-parser` library
(loosely-typed optional fields; `contentEncoded` models `item['content:encoded']`). -/
structure RawItem where
  title : Option String
  content : Option String
  contentEncoded : Option String
  contentSnippet : Option String
  summary : Option String
  link : Option String
  pubDate : Option Nat
  creator : Option String
  author : Option String
  guid : Option String
  id : Option String
deriving DecidableEq, Repr

/-- A raw feed document as returned by the external `rss-parser` library. -/
structure RawFeed where
  title : Option String
  description : Option String
  link : Option String
  feedUrl : Option String
  generator : Option String
  items : List RawItem
deriving DecidableEq, Repr

/-- Outcome of one `parseURL` attempt: a document, or a thrown error. -/
inductive FetchOutcome where
  | ok (feed : RawFeed)
  | err (e : FetchError)
deriving DecidableEq, Repr

/-! ## Small JS-semantics helpers -/

/-- JS `a || d` for an optional string `a` (empty string is falsy). -/
def orDefault : Option String → String → String
  | some s, d => if s.isEmpty then d else s
  | none, d => d

/-- JS `a || b` where both sides are optional strings (empty string falsy). -/
def orOptStr : Option String → Option String → Option String
  | some s, b => if s.isEmpty then b else some s
  | none, b => b

/-- JS `n || d` for an optional number (0 is falsy), as used by the parser
config resolution. -/
def orNum : Option Nat → Nat → Nat
  | some 0, d => d
  | some n, _ => n
  | none, d => d

/-- Boolean test that `pat` is a prefix of `s` (character lists). -/
def charsPrefix : List Char → List Char → Bool
  | [], _ => true
  | _ :: _, [] => false
  | a :: as, b :: bs => (a == b) && charsPrefix as bs

/-- Boolean substring test on character lists (JS `String.includes`). -/
def charsInfix (pat : List Char) : List Char → Bool
  | [] => charsPrefix pat []
  | c :: rest => charsPrefix pat (c :: rest) || charsInfix pat rest

/-- JS `s.includes(pat)`. -/
def strIncludes (s pat : String) : Bool :=
  charsInfix pat.toList s.toList

/-! ## RSSParser embedding -/

/-- Resolved parser configuration with the constructor's defaults applied
(`config.timeout || 10000`, `maxRetries || 3`, `retryDelay || 1000`). -/
structure ResolvedConfig where
  timeout : Nat
  maxRetries : Nat
  retryDelay : Nat
  userAgent : String
deriving DecidableEq, Repr

def resolveConfig (c : RSSParserConfig) : ResolvedConfig :=
  { timeout := orNum c.timeout 10000
    maxRetries := orNum c.maxRetries 3
    retryDelay := orNum c.retryDelay 1000
    userAgent := orDefault c.userAgent "Quiet-RSS/1.0 (+https://github.com/quiet-rss/quiet-rss)" }

/-- `RSSParser.isValidUrl`: the `URL` constructor must succeed and the
protocol must be `http:` or `https:`. -/
def isValidUrl (urlParse : String → Option UrlParts) (url : String) : Bool :=
  match urlParse url with
  | some u => (u.protocol == "http:") || (u.protocol == "https:")
  | none => false

/-- `RSSParser.shouldNotRetry`: 4xx other than 429, or a message that looks
like a parse failure, aborts the retry loop. -/
def shouldNotRetry (e : FetchError) : Bool :=
  (match e.status with
   | some s => decide (400 ≤ s) && decide (s < 500) && decide (s ≠ 429)
   | none => false)
  || strIncludes e.message "Invalid XML"
  || strIncludes e.message "Not a feed"

/-- The `new Error('Unknown error')` fallback for a non-`Error` throw. -/
def unknownFetchError : FetchError :=
  { status := none, code := none, message := "Unknown error" }

/-- Observable trace of `parseWithRetries`: the final result, the number of
`parseURL` attempts performed, the number of delay calls, and the total
milliseconds waited. -/
structure RetryTrace where
  result : Except FetchError RawFeed
  attempts : Nat
  delays : Nat
  waitedMs : Nat
deriving DecidableEq, Repr

/-- Loop body of `RSSParser.parseWithRetries`. `attempt` is the 1-based
attempt counter; `remaining` counts the loop iterations left
(`maxRetries - attempt + 1` at entry). The delay runs only when the attempt
failed retryably and `attempt < maxRetries`. -/
def parseWithRetriesGo (fetch : Nat → FetchOutcome) (maxRetries retryDelay : Nat)
    (lastError : Option FetchError) (attempt : Nat) :
    (remaining : Nat) → RetryTrace
  | 0 =>
    { result := Except.error (lastError.getD unknownFetchError)
      attempts := attempt - 1, delays := 0, waitedMs := 0 }
  | remaining + 1 =>
    match fetch attempt with
    | FetchOutcome.ok feed =>
      { result := Except.ok feed, attempts := attempt, delays := 0, waitedMs := 0 }
    | FetchOutcome.err e =>
      if shouldNotRetry e then
        { result := Except.error e, attempts := attempt, delays := 0, waitedMs := 0 }
      else
        let rest := parseWithRetriesGo fetch maxRetries retryDelay (some e) (attempt + 1) remaining
        if attempt < maxRetries then
          { rest with delays := rest.delays + 1, waitedMs := rest.waitedMs + retryDelay }
        else rest

/-- `RSSParser.parseWithRetries`: up to `maxRetries` attempts starting at 1. -/
def parseWithRetries (cfg : ResolvedConfig) (fetch : Nat → FetchOutcome) : RetryTrace :=
  parseWithRetriesGo fetch cfg.maxRetries cfg.retryDelay none 1 cfg.maxRetries

/-- `RSSParser.getNetworkError` (code table, then timeout message sniffing). -/
def getNetworkError (code : Option String) (message : String) :
    Option (RSSErrorType × String) :=
  match code with
  | some c =>
    if c == "ENOTFOUND" then
      some (RSSErrorType.NETWORK_ERROR, "Domain not found or network connection failed")
    else if c == "ECONNREFUSED" then
      some (RSSErrorType.NETWORK_ERROR, "Connection refused by server")
    else if c == "ETIMEDOUT" then
      some (RSSErrorType.TIMEOUT_ERROR, "Request timed out")
    else if strIncludes message "timeout" then
      some (RSSErrorType.TIMEOUT_ERROR, "Request timed out")
    else none
  | none =>
    if strIncludes message "timeout" then
      some (RSSErrorType.TIMEOUT_ERROR, "Request timed out")
    else none

/-- `RSSParser.getHttpError` (404, 403, then any 5xx; `!status` guards 0/absent). -/
def getHttpError (status : Option Nat) : Option (RSSErrorType × String) :=
  match status with
  | none => none
  | some 0 => none
  | some s =>
    if s == 404 then some (RSSErrorType.NOT_FOUND, "Feed not found (404)")
    else if s == 403 then some (RSSErrorType.ACCESS_DENIED, "Access denied (403)")
    else if 500 ≤ s then some (RSSErrorType.SERVER_ERROR, "Server error (" ++ toString s ++ ")")
    else none

/-- `RSSParser.isParseError`. -/
def isParseErrorMsg (message : String) : Bool :=
  strIncludes message "Invalid XML" || strIncludes message "Not a feed"
    || strIncludes message "parse"

/-- `RSSParser.parseError`: classification order is network, HTTP status,
parse, then the network-error fallback. -/
def classifyError (e : FetchError) : RSSParsingError :=
  match getNetworkError e.code e.message with
  | some (t, m) => { message := m, etype := t, statusCode := e.status }
  | none =>
    match getHttpError e.status with
    | some (t, m) => { message := m, etype := t, statusCode := e.status }
    | none =>
      if isParseErrorMsg e.message then
        { message := e.message, etype := RSSErrorType.PARSE_ERROR, statusCode := e.status }
      else
        { message := e.message, etype := RSSErrorType.NETWORK_ERROR, statusCode := e.status }

/-- `RSSParser.detectFeedType`: `true` models `'atom'`, `false` models `'rss'`. -/
def detectFeedType (feed : RawFeed) : Bool :=
  (match feed.feedUrl with
   | some u => strIncludes u "atom"
   | none => false)
  || (match feed.generator with
      | some g => strIncludes g.toLower "atom"
      | none => false)

/-- `RSSParser.extractFavicon`: scheme + host of the feed's site link with
`/favicon.ico` appended; absent when the link is missing, empty or unparsable. -/
def extractFavicon (urlParse : String → Option UrlParts) (feedLink : Option String) :
    Option String :=
  match feedLink with
  | none => none
  | some l =>
    if l.isEmpty then none
    else
      match urlParse l with
      | some u => some (u.protocol ++ "//" ++ u.hostname ++ "/favicon.ico")
      | none => none

/-- `RSSParser.parseArticles`: normalization of raw items, with the JS `||`
fallback chains and `publishedAt` defaulting to the current time. -/
def parseArticles (items : List RawItem) (now : Nat) : List ParsedArticle :=
  items.map (fun item =>
    { title := orDefault item.title "Untitled Article"
      content := orDefault item.content
        (orDefault item.contentEncoded (orDefault item.contentSnippet ""))
      summary := some (orDefault item.contentSnippet (orDefault item.summary ""))
      url := orDefault item.link ""
      publishedAt := (match item.pubDate with | some d => d | none => now)
      author := orOptStr item.creator (orOptStr item.author none)
      guid := orOptStr item.guid (orOptStr item.id none) })

/-- The error thrown by `parseFeed` on a malformed URL. -/
def invalidUrlFetchError : FetchError :=
  { status := none, code := none
    message := "Invalid URL format - must be a valid HTTP or HTTPS URL" }

/-- The message of the error rethrown by `parseFeed`:
``` `${errorInfo.type}: ${errorInfo.message}` ```. -/
def thrownMessage (i : RSSParsingError) : String :=
  RSSErrorType.str i.etype ++ ": " ++ i.message

/-- `RSSParser.parseFeed`: validate the URL, fetch with retries, normalize;
every failure is rethrown as a classified `Error` (modelled as `Except.error`
carrying the thrown message). -/
def parseFeed (cfg : RSSParserConfig) (urlParse : String → Option UrlParts)
    (fetch : Nat → FetchOutcome) (url : String) (now : Nat) :
    Except String ParsedFeed :=
  if !(isValidUrl urlParse url) then
    Except.error (thrownMessage (classifyError invalidUrlFetchError))
  else
    match (parseWithRetries (resolveConfig cfg) fetch).result with
    | Except.error e => Except.error (thrownMessage (classifyError e))
    | Except.ok feed =>
      Except.ok
        { title := orDefault feed.title "Unknown Feed"
          description := feed.description
          url := url
          favicon := extractFavicon urlParse feed.link
          articles := parseArticles feed.items now }

/-- `RSSParser.validateFeed`. The second component instruments the number of
`parseURL` attempts performed (0 when the URL is rejected before any network
call). -/
def validateFeed (cfg : RSSParserConfig) (urlParse : String → Option UrlParts)
    (fetch : Nat → FetchOutcome) (url : String) : FeedValidationResult × Nat :=
  if !(isValidUrl urlParse url) then
    ({ isValid := false, feedType := none, title := none
       error := some "Invalid URL format - must be a valid HTTP or HTTPS URL"
       errorType := some RSSErrorType.INVALID_URL, statusCode := none }, 0)
  else
    let trace := parseWithRetries (resolveConfig cfg) fetch
    match trace.result with
    | Except.ok feed =>
      ({ isValid := true, feedType := some (detectFeedType feed)
         title := some (orDefault feed.title "Unknown Feed")
         error := none, errorType := none, statusCode := none }, trace.attempts)
    | Except.error e =>
      let info := classifyError e
      ({ isValid := false, feedType := none, title := none
         error := some info.message, errorType := some info.etype
         statusCode := info.statusCode }, trace.attempts)

/-! ## FeedManager embedding (packages/core/src/managers/feed-manager.ts) -/

/-- The two storage collections (the storage collaborator's source of truth). -/
structure StorageState where
  feeds : List Feed
  articles : List Article
deriving DecidableEq, Repr

/-- One storage write call, for observing write ordering. -/
inductive StorageWrite where
  | feedsWrite (feeds : List Feed)
  | articlesWrite (articles : List Article)
deriving DecidableEq, Repr

/-- The engine's environment: parser configuration, the `URL` collaborator,
the network (per feed URL, per attempt number), the clock, and the id
generator (per call index within one operation). -/
structure Env where
  cfg : RSSParserConfig
  urlParse : String → Option UrlParts
  fetch : String → Nat → FetchOutcome
  now : Nat
  genId : Nat → String

/-- Conversion of a parsed article into a stored `Article`
(fresh id, owning feed id, `isRead`/`isStarred` false; no guid is kept). -/
def mkArticle (id fid : String) (pa : ParsedArticle) : Article :=
  { id := id, feedId := fid, title := pa.title, content := pa.content
    summary := pa.summary, url := pa.url, publishedAt := pa.publishedAt
    isRead := false, isStarred := false, author := pa.author }

/-- `newParsedArticles.map(a => ({id: this.generateId(), feedId: feed.id, ...}))`:
successive generated ids starting at call index `i`. -/
def assignIds (g : Nat → String) (fid : String) : Nat → List ParsedArticle → List Article
  | _, [] => []
  | i, pa :: rest => mkArticle (g i) fid pa :: assignIds g fid (i + 1) rest

/-- `existingArticles.filter(a => a.feedId === feedId)`. -/
def feedArticlesOf (articles : List Article) (fid : String) : List Article :=
  articles.filter (fun a => a.feedId == fid)

/-- `new Set(feedArticles.map(a => a.url))`, as the list of that feed's urls. -/
def existingUrlsFor (articles : List Article) (fid : String) : List String :=
  (feedArticlesOf articles fid).map (fun a => a.url)

/-- `existingUrls.has(url)`. -/
def hasUrl (urls : List String) (u : String) : Bool :=
  urls.any (fun v => v == u)

/-- `parsedFeed.articles.filter(article => !existingUrls.has(article.url))`:
the reconciliation step of `refreshFeed`, scoped to `fid`'s stored articles. -/
def reconcileNew (articles : List Article) (fid : String) (parsed : List ParsedArticle) :
    List ParsedArticle :=
  parsed.filter (fun pa => !(hasUrl (existingUrlsFor articles fid) pa.url))

/-- The in-place metadata update `refreshFeed` applies to the feed record
after ingesting `k` new articles. -/
def refreshedFeed (feed : Feed) (now k : Nat) : Feed :=
  { feed with
    lastUpdated := now
    lastFetched := some now
    unreadCount := feed.unreadCount + k
    totalCount := feed.totalCount + k }

/-- `FeedManager.refreshFeed`. `saveArtFail`/`saveFeedsFail` model the two
storage save calls: `none` means the call succeeds, `some m` means it throws
message `m` (the call is atomic, so a failed save changes nothing). All
failures inside the `try` block are caught and reported through the returned
`RefreshResult`; only a missing feed id escapes as a thrown error. -/
def refreshFeed (env : Env) (saveArtFail saveFeedsFail : Option String)
    (st : StorageState) (feedId : String) :
    Except String (StorageState × RefreshResult) :=
  match st.feeds.find? (fun f => f.id == feedId) with
  | none => Except.error ("Feed with ID " ++ feedId ++ " not found")
  | some feed =>
    match parseFeed env.cfg env.urlParse (env.fetch feed.url) feed.url env.now with
    | Except.error msg =>
      Except.ok (st, { feedId := feedId, success := false, newArticleCount := 0
                       error := some msg })
    | Except.ok parsedFeed =>
      let newParsedArticles := reconcileNew st.articles feedId parsedFeed.articles
      let newArticles := assignIds env.genId feed.id 0 newParsedArticles
      let persistFeed : StorageState → Except String (StorageState × RefreshResult) :=
        fun st1 =>
          match saveFeedsFail with
          | some m =>
            Except.ok (st1, { feedId := feedId, success := false, newArticleCount := 0
                              error := some m })
          | none =>
            let feed' := { feed with
              lastUpdated := env.now
              lastFetched := some env.now
              unreadCount := feed.unreadCount + newArticles.length
              totalCount := feed.totalCount + newArticles.length }
            let feeds' := st1.feeds.set (st1.feeds.findIdx (fun f => f.id == feedId)) feed'
            Except.ok ({ st1 with feeds := feeds' },
              { feedId := feedId, success := true, newArticleCount := newArticles.length
                error := none })
      if newArticles.length > 0 then
        match saveArtFail with
        | some m =>
          Except.ok (st, { feedId := feedId, success := false, newArticleCount := 0
                           error := some m })
        | none => persistFeed { st with articles := st.articles ++ newArticles }
      else persistFeed st

/-- `FeedManager.addFeed`. Returns the new state, the created feed, and the
ordered trace of storage writes performed (feed collection save, then —
when there are initial articles — article collection save). -/
def addFeed (env : Env) (payload : FeedCreatePayload) (st : StorageState) :
    Except String (StorageState × Feed × List StorageWrite) :=
  let validation := (validateFeed env.cfg env.urlParse (env.fetch payload.url) payload.url).1
  if !validation.isValid then
    Except.error ("Invalid feed: " ++
      (match validation.error with | some m => m | none => "undefined"))
  else
    match parseFeed env.cfg env.urlParse (env.fetch payload.url) payload.url env.now with
    | Except.error m => Except.error m
    | Except.ok parsedFeed =>
      let feed : Feed :=
        { id := env.genId 0
          title := orDefault payload.customTitle parsedFeed.title
          url := payload.url
          description := parsedFeed.description
          categoryId := payload.categoryId
          lastUpdated := env.now
          lastFetched := some env.now
          favicon := parsedFeed.favicon
          unreadCount := parsedFeed.articles.length
          totalCount := parsedFeed.articles.length
          isActive := true
          refreshInterval := none }
      let feeds' := st.feeds ++ [feed]
      let articles := assignIds env.genId feed.id 1 parsedFeed.articles
      if articles.length > 0 then
        Except.ok ({ feeds := feeds', articles := st.articles ++ articles }, feed,
          [StorageWrite.feedsWrite feeds',
           StorageWrite.articlesWrite (st.articles ++ articles)])
      else
        Except.ok ({ feeds := feeds', articles := st.articles }, feed,
          [StorageWrite.feedsWrite feeds'])

/-- Sequential fan-out over the given feed ids (the cooperative interleaving
of `activeFeeds.map(feed => this.refreshFeed(feed.id))` + `Promise.all`). -/
def refreshAllGo (env : Env) (sa sf : String → Option String) :
    StorageState → List String → Except String (StorageState × List RefreshResult)
  | st, [] => Except.ok (st, [])
  | st, fid :: rest =>
    match refreshFeed env (sa fid) (sf fid) st fid with
    | Except.error e => Except.error e
    | Except.ok (st1, r) =>
      match refreshAllGo env sa sf st1 rest with
      | Except.error e => Except.error e
      | Except.ok (st2, rs) => Except.ok (st2, r :: rs)

/-- `FeedManager.refreshAllFeeds`: load all feeds, filter to `isActive`,
refresh each, collect the per-feed results. -/
def refreshAllFeeds (env : Env) (sa sf : String → Option String) (st : StorageState) :
    Except String (StorageState × List RefreshResult) :=
  refreshAllGo env sa sf st
    ((st.feeds.filter (fun f => f.isActive)).map (fun f => f.id))

/-- Modelled from the spec: the repository declares `BatchRefreshResult`
(`packages/types/src/api.ts`) but never constructs it — `refreshAllFeeds`
returns the bare result list. The spec says the aggregate's `totalNew` is the
sum of successful results' `newArticleCount` and `totalErrors` the count of
`success:false` results. -/
def mkBatchRefreshResult (results : List RefreshResult) : BatchRefreshResult :=
  { results := results
    totalNew := ((results.filter (fun r => r.success)).map (fun r => r.newArticleCount)).sum
    totalErrors := (results.filter (fun r => !r.success)).length }

/-! ## Concrete instances used by witnesses and counterexamples -/

def wDoc : RawFeed :=
  { title := some "Example Feed", description := none, link := none
    feedUrl := none, generator := none, items := [] }

def wErrA : FetchError :=
  { status := some 500, code := none, message := "Internal Server Error" }

def wErrB : FetchError :=
  { status := some 404, code := none, message := "Request failed with status code 404" }

/-- A network that fails twice with a 500 and then succeeds. -/
def wFetchA : Nat → FetchOutcome :=
  fun n => if n ≤ 2 then FetchOutcome.err wErrA else FetchOutcome.ok wDoc

/-- A network that always fails with a 404. -/
def wFetchB : Nat → FetchOutcome :=
  fun _ => FetchOutcome.err wErrB

/-- A stored feed used by concrete scenarios. -/
def wFeed1 : Feed :=
  { id := "f1", title := "Feed One", url := "http://e.com/feed", description := none
    categoryId := none, lastUpdated := 0, lastFetched := none, favicon := none
    unreadCount := 0, totalCount := 0, isActive := true, refreshInterval := none }

/-- Storage holding `wFeed1` and no articles. -/
def wSt1 : StorageState := { feeds := [wFeed1], articles := [] }

/-- An environment whose `URL` collaborator rejects every URL, so every
fetch/parse fails before any network call. -/
def wEnvBad : Env :=
  { cfg := {}, urlParse := fun _ => none, fetch := fun _ _ => FetchOutcome.ok wDoc
    now := 100, genId := fun i => "id" ++ toString i }

/-- Raw items used by concrete scenarios. -/
def wItemA : RawItem :=
  { title := some "A", content := none, contentEncoded := none, contentSnippet := none
    summary := none, link := some "http://e.com/a", pubDate := some 5, creator := none
    author := none, guid := none, id := none }

def wItemB : RawItem :=
  { title := some "B", content := none, contentEncoded := none, contentSnippet := none
    summary := none, link := some "http://e.com/b", pubDate := some 5, creator := none
    author := none, guid := none, id := none }

def wItemC : RawItem :=
  { title := some "C", content := none, contentEncoded := none, contentSnippet := none
    summary := none, link := some "http://e.com/c", pubDate := some 5, creator := none
    author := none, guid := none, id := none }

/-- A raw feed carrying the three items above. -/
def wRaw3 : RawFeed :=
  { title := some "Example Feed", description := none, link := none
    feedUrl := none, generator := none, items := [wItemA, wItemB, wItemC] }

/-- The normalized form of `wItemB`. -/
def wPB : ParsedArticle :=
  { title := "B", content := "", summary := some "", url := "http://e.com/b"
    publishedAt := 5, author := none, guid := none }

/-- Stored article of feed `f1` with url `http://e.com/a`. -/
def wArtA : Article :=
  { id := "a1", feedId := "f1", title := "old A", content := "", summary := none
    url := "http://e.com/a", publishedAt := 1, isRead := false, isStarred := false
    author := none }

/-- Stored article of the *other* feed `f2` with url `http://e.com/b`. -/
def wArtB2 : Article :=
  { id := "a2", feedId := "f2", title := "old B", content := "", summary := none
    url := "http://e.com/b", publishedAt := 1, isRead := false, isStarred := false
    author := none }

/-- An environment that accepts every URL and always serves `wRaw3`. -/
def wEnvOk : Env :=
  { cfg := {}, urlParse := fun _ => some { protocol := "http:", hostname := "e.com" }
    fetch := fun _ _ => FetchOutcome.ok wRaw3
    now := 100, genId := fun i => "id" ++ toString i }

/-- Storage with `wFeed1` plus one own-feed article (url a) and one
other-feed article (url b). -/
def wStC7 : StorageState := { feeds := [wFeed1], articles := [wArtA, wArtB2] }

/-- The parsed feed `wEnvOk` produces for `wFeed1.url` (total projection of
the `parseFeed` result). -/
def wPfC7 : ParsedFeed :=
  match parseFeed wEnvOk.cfg wEnvOk.urlParse (wEnvOk.fetch wFeed1.url) wFeed1.url wEnvOk.now with
  | Except.ok p => p
  | Except.error _ =>
    { title := "", description := none, url := "", favicon := none, articles := [] }

/-- The state/result pair of refreshing `wFeed1` in `wStC7` (total projection). -/
def wOutC7 : StorageState × RefreshResult :=
  match refreshFeed wEnvOk none none wStC7 "f1" with
  | Except.ok p => p
  | Except.error _ =>
    (wStC7, { feedId := "", success := false, newArticleCount := 0, error := none })

/-- A raw item with guid `g` under url `/1`. -/
def wItemG1 : RawItem :=
  { title := some "G", content := none, contentEncoded := none, contentSnippet := none
    summary := none, link := some "http://e.com/1", pubDate := some 5, creator := none
    author := none, guid := some "g", id := none }

/-- The same logical entry as `wItemG1` (same guid `g`) under url `/2`. -/
def wItemG2 : RawItem :=
  { title := some "G", content := none, contentEncoded := none, contentSnippet := none
    summary := none, link := some "http://e.com/2", pubDate := some 5, creator := none
    author := none, guid := some "g", id := none }

def wRawG1 : RawFeed :=
  { title := some "Example Feed", description := none, link := none
    feedUrl := none, generator := none, items := [wItemG1] }

def wRawG2 : RawFeed :=
  { title := some "Example Feed", description := none, link := none
    feedUrl := none, generator := none, items := [wItemG2] }

/-- Environment serving `wRawG1`. -/
def wEnvG1 : Env :=
  { cfg := {}, urlParse := fun _ => some { protocol := "http:", hostname := "e.com" }
    fetch := fun _ _ => FetchOutcome.ok wRawG1
    now := 100, genId := fun i => "id" ++ toString i }

/-- Environment serving `wRawG2` (upstream changed the entry's url, kept its guid). -/
def wEnvG2 : Env :=
  { cfg := {}, urlParse := fun _ => some { protocol := "http:", hostname := "e.com" }
    fetch := fun _ _ => FetchOutcome.ok wRawG2
    now := 200, genId := fun i => "jd" ++ toString i }

/-- State after refreshing `wFeed1` against `wRawG1` (ingests the guid-`g`
entry under url `/1`). -/
def c1FirstOut : StorageState :=
  match refreshFeed wEnvG1 none none wSt1 "f1" with
  | Except.ok p => p.1
  | Except.error _ => wSt1

/-- `newArticleCount` of the follow-up refresh against `wRawG2`. -/
def c1SecondCount : Option Nat :=
  match refreshFeed wEnvG2 none none c1FirstOut "f1" with
  | Except.ok p => some p.2.newArticleCount
  | Except.error _ => none

/-- Refresh of `wFeed1` in which the article save succeeds but the follow-up
feed-collection save throws (total projection of the result). -/
def c5out : Option (StorageState × RefreshResult) :=
  match refreshFeed wEnvOk none (some "storage write failed") wSt1 "f1" with
  | Except.ok p => some p
  | Except.error _ => none

def isFeedsW : StorageWrite → Bool
  | StorageWrite.feedsWrite _ => true
  | StorageWrite.articlesWrite _ => false

def isArticlesW : StorageWrite → Bool
  | StorageWrite.articlesWrite _ => true
  | StorageWrite.feedsWrite _ => false

/-- The ordering property claimed by the spec for `addFeed`: the (first)
article-collection write occurs strictly before the (first) feed-collection
write of the trace. -/
def articlesBeforeFeed (tr : List StorageWrite) : Bool :=
  Nat.blt (tr.findIdx isArticlesW) (tr.findIdx isFeedsW)

def wPayload : FeedCreatePayload :=
  { url := "http://e.com/feed", categoryId := none, customTitle := none }

/-- Adding a feed over empty storage via `wEnvOk` (total projection). -/
def c9trip : StorageState × Feed × List StorageWrite :=
  match addFeed wEnvOk wPayload { feeds := [], articles := [] } with
  | Except.ok p => p
  | Except.error _ => ({ feeds := [], articles := [] }, wFeed1, [])

/-- Same collaborators as `wEnvOk`, later clock, different id generator. -/
def wEnvOk2 : Env :=
  { cfg := {}, urlParse := wEnvOk.urlParse, fetch := wEnvOk.fetch
    now := 200, genId := fun i => "kd" ++ toString i }

/-- First refresh of `wFeed1` over empty article storage (total projection). -/
def c4first : StorageState × RefreshResult :=
  match refreshFeed wEnvOk none none wSt1 "f1" with
  | Except.ok p => p
  | Except.error _ => (wSt1, { feedId := "", success := false, newArticleCount := 0, error := none })

/-- Immediate second refresh with unchanged upstream content. -/
def c4second : StorageState × RefreshResult :=
  match refreshFeed wEnvOk2 none none c4first.1 "f1" with
  | Except.ok p => p
  | Except.error _ => (c4first.1, { feedId := "", success := false, newArticleCount := 0, error := none })

/-- Executable check of the spec's storage invariant: at most one stored
article per `feedId` + dedup key (the stored shape has no guid, so the key
is the url). -/
def pairwiseKeysOk : List Article → Bool
  | [] => true
  | a :: rest =>
    rest.all (fun b => !(a.feedId == b.feedId && a.url == b.url)) && pairwiseKeysOk rest

/-- The spec's storage invariant as a proposition. -/
def KeyPairwise (arts : List Article) : Prop :=
  arts.Pairwise (fun a b => ¬(a.feedId = b.feedId ∧ a.url = b.url))

/-- Every document the environment can serve parses to articles with
pairwise-distinct urls. -/
def ParsedUrlsNodup (env : Env) : Prop :=
  ∀ (u : String) (n : Nat) (pf : ParsedFeed),
    parseFeed env.cfg env.urlParse (env.fetch u) u n = Except.ok pf →
    (pf.articles.map (fun pa => pa.url)).Nodup

/-- A raw feed whose document carries the same item (same link) twice. -/
def wRawDup : RawFeed :=
  { title := some "Example Feed", description := none, link := none
    feedUrl := none, generator := none, items := [wItemA, wItemA] }

/-- Environment serving the duplicate-item document. -/
def wEnvDup : Env :=
  { cfg := {}, urlParse := fun _ => some { protocol := "http:", hostname := "e.com" }
    fetch := fun _ _ => FetchOutcome.ok wRawDup
    now := 100, genId := fun i => "id" ++ toString i }

/-- Storage after adding a feed whose document repeats one url (total
projection). -/
def c8out : Option StorageState :=
  match addFeed wEnvDup wPayload { feeds := [], articles := [] } with
  | Except.ok p => some p.1
  | Except.error _ => none

/-! ## Helper lemmas -/

theorem hasUrl_iff (urls : List String) (u : String) :
    hasUrl urls u = true ↔ u ∈ urls := by
  simp [hasUrl, List.any_eq_true]

theorem set_self_of_get {α : Type} : ∀ (l : List α) (i : Nat) (x : α),
    l[i]? = some x → l.set i x = l
  | [], _, _, h => by simp at h
  | a :: t, 0, x, h => by
    simp at h
    simp [List.set, h]
  | a :: t, i + 1, x, h => by
    simp at h
    simp [List.set, set_self_of_get t i x h]

theorem getElem?_findIdx_of_find? {α : Type} (p : α → Bool) :
    ∀ (l : List α) (x : α), l.find? p = some x → l[l.findIdx p]? = some x
  | [], x, h => by simp at h
  | a :: t, x, h => by
    by_cases pa : p a
    · simp [List.find?, pa] at h
      subst h
      simp [List.findIdx_cons, pa]
    · simp [List.find?, pa] at h
      simp [List.findIdx_cons, pa]
      exact getElem?_findIdx_of_find? p t x h

theorem find?_set_findIdx {α : Type} (p : α → Bool) :
    ∀ (l : List α) (x y : α), l.find? p = some x → p y = true →
      (l.set (l.findIdx p) y).find? p = some y
  | [], x, y, h, _ => by simp at h
  | a :: t, x, y, h, hy => by
    by_cases pa : p a
    · simp [List.findIdx_cons, pa, List.set, List.find?, hy]
    · simp [List.find?, pa] at h
      simp [List.findIdx_cons, pa, List.set, List.find?]
      exact find?_set_findIdx p t x y h hy

theorem filter_nil_of_false {α : Type} (p : α → Bool) (l : List α)
    (h : ∀ a ∈ l, p a = false) : l.filter p = [] := by
  apply List.filter_eq_nil_iff.mpr
  intro a ha
  simp [h a ha]

theorem assignIds_urls (g : Nat → String) (fid : String) :
    ∀ (k : Nat) (l : List ParsedArticle),
      (assignIds g fid k l).map (fun a => a.url) = l.map (fun pa => pa.url)
  | _, [] => rfl
  | k, pa :: rest => by
    simp [assignIds, mkArticle, assignIds_urls g fid (k + 1) rest]

theorem assignIds_length (g : Nat → String) (fid : String) :
    ∀ (k : Nat) (l : List ParsedArticle), (assignIds g fid k l).length = l.length
  | _, [] => rfl
  | k, pa :: rest => by
    simp [assignIds, assignIds_length g fid (k + 1) rest]

theorem mem_assignIds (g : Nat → String) (fid : String) :
    ∀ (k : Nat) (l : List ParsedArticle) (a : Article), a ∈ assignIds g fid k l →
      a.feedId = fid ∧ a.url ∈ l.map (fun pa => pa.url)
  | k, [], a, h => by simp [assignIds] at h
  | k, pa :: rest, a, h => by
    simp only [assignIds, List.mem_cons] at h
    rcases h with h | h
    · subst h
      simp [mkArticle]
    · have := mem_assignIds g fid (k + 1) rest a h
      exact ⟨this.1, by simp only [List.map_cons, List.mem_cons]; exact Or.inr this.2⟩

theorem assignIds_filter_fid (g : Nat → String) (fid : String) :
    ∀ (k : Nat) (l : List ParsedArticle),
      (assignIds g fid k l).filter (fun a => a.feedId == fid) = assignIds g fid k l
  | _, [] => rfl
  | k, pa :: rest => by
    simp [assignIds, List.filter_cons, mkArticle,
      assignIds_filter_fid g fid (k + 1) rest]

theorem existingUrlsFor_append_assignIds (arts : List Article) (fid : String)
    (g : Nat → String) (k : Nat) (l : List ParsedArticle) :
    existingUrlsFor (arts ++ assignIds g fid k l) fid
      = existingUrlsFor arts fid ++ l.map (fun pa => pa.url) := by
  simp only [existingUrlsFor, feedArticlesOf, List.filter_append, List.map_append,
    assignIds_filter_fid, assignIds_urls]

/-- After ingesting one reconciliation's output, a second reconciliation
against any parsed list with the same urls finds nothing new. -/
theorem reconcile_after_ingest (arts : List Article) (fid : String)
    (parsed parsed2 : List ParsedArticle) (g : Nat → String) (k : Nat)
    (hurl : parsed2.map (fun pa => pa.url) = parsed.map (fun pa => pa.url)) :
    reconcileNew (arts ++ assignIds g fid k (reconcileNew arts fid parsed)) fid parsed2
      = [] := by
  apply filter_nil_of_false
  intro pa hpa
  simp only [Bool.not_eq_false']
  apply (hasUrl_iff _ _).mpr
  rw [existingUrlsFor_append_assignIds]
  have hmem : pa.url ∈ parsed.map (fun pa => pa.url) := by
    rw [← hurl]
    exact List.mem_map_of_mem _ hpa
  rcases List.mem_map.mp hmem with ⟨pb, hpb, hpbu⟩
  by_cases hb : hasUrl (existingUrlsFor arts fid) pb.url
  · apply List.mem_append_left
    rw [← hpbu]
    exact (hasUrl_iff _ _).mp hb
  · apply List.mem_append_right
    rw [← hpbu]
    apply List.mem_map_of_mem
    simp only [reconcileNew, List.mem_filter]
    exact ⟨hpb, by simp [hb]⟩

theorem parseArticles_urls (items : List RawItem) (n : Nat) :
    (parseArticles items n).map (fun pa => pa.url)
      = items.map (fun i => orDefault i.link "") := by
  simp [parseArticles, List.map_map]

/-- Inversion of a successful `parseFeed`. -/
theorem parseFeed_ok_elim (cfg : RSSParserConfig) (up : String → Option UrlParts)
    (f : Nat → FetchOutcome) (u : String) (n : Nat) (pf : ParsedFeed)
    (h : parseFeed cfg up f u n = Except.ok pf) :
    isValidUrl up u = true ∧
    ∃ raw, (parseWithRetries (resolveConfig cfg) f).result = Except.ok raw ∧
      pf = { title := orDefault raw.title "Unknown Feed"
             description := raw.description
             url := u
             favicon := extractFavicon up raw.link
             articles := parseArticles raw.items n } := by
  by_cases hv : isValidUrl up u
  · refine ⟨hv, ?_⟩
    simp only [parseFeed, hv, Bool.not_true, Bool.false_eq_true, if_false] at h
    cases hres : (parseWithRetries (resolveConfig cfg) f).result with
    | error e => rw [hres] at h; simp at h
    | ok raw =>
      rw [hres] at h
      simp only [Except.ok.injEq] at h
      exact ⟨raw, rfl, h.symm⟩
  · simp only [parseFeed, hv] at h
    simp at h

/-- A successful `parseFeed` stays successful when only the clock changes,
and the article urls it produces are unchanged. -/
theorem parseFeed_ok_other_now (cfg : RSSParserConfig) (up : String → Option UrlParts)
    (f : Nat → FetchOutcome) (u : String) (n1 n2 : Nat) (pf : ParsedFeed)
    (h : parseFeed cfg up f u n1 = Except.ok pf) :
    ∃ pf2, parseFeed cfg up f u n2 = Except.ok pf2 ∧
      pf2.articles.map (fun pa => pa.url) = pf.articles.map (fun pa => pa.url) := by
  rcases parseFeed_ok_elim cfg up f u n1 pf h with ⟨hv, raw, hres, hpf⟩
  refine ⟨{ title := orDefault raw.title "Unknown Feed"
            description := raw.description
            url := u
            favicon := extractFavicon up raw.link
            articles := parseArticles raw.items n2 }, ?_, ?_⟩
  · simp [parseFeed, hv, hres]
  · rw [hpf]
    simp [parseArticles_urls]

theorem go_attempts_le (fetch : Nat → FetchOutcome) (mR rD : Nat) :
    ∀ (remaining : Nat) (le : Option FetchError) (attempt : Nat),
      (parseWithRetriesGo fetch mR rD le attempt remaining).attempts
        ≤ attempt - 1 + remaining := by
  intro remaining
  induction remaining with
  | zero =>
    intro le attempt
    simp [parseWithRetriesGo]
  | succ r ih =>
    intro le attempt
    simp only [parseWithRetriesGo]
    cases hfa : fetch attempt with
    | ok feed => simp; omega
    | err e =>
      by_cases hs : shouldNotRetry e
      · simp [hs]; omega
      · simp only [hs, Bool.false_eq_true, if_false]
        have := ih (some e) (attempt + 1)
        by_cases hlt : attempt < mR <;> simp [hlt] <;> omega

theorem resolveConfig_maxRetries_pos (cfg : RSSParserConfig) :
    0 < (resolveConfig cfg).maxRetries := by
  have hdef : (resolveConfig cfg).maxRetries = orNum cfg.maxRetries 3 := rfl
  rw [hdef]
  cases hm : cfg.maxRetries with
  | none => simp [orNum]
  | some n =>
    cases n with
    | zero => simp [orNum]
    | succ k => simp [orNum]

theorem shouldNotRetry_of_4xx (e : FetchError) (s : Nat) (hst : e.status = some s)
    (hle : 400 ≤ s) (hlt : s < 500) (hne : s ≠ 429) : shouldNotRetry e = true := by
  simp [shouldNotRetry, hst, hle, hlt, hne]

theorem nonretryable_first_attempt (cfg : RSSParserConfig) (f2 : Nat → FetchOutcome)
    (e : FetchError) (h1 : f2 1 = FetchOutcome.err e) (hsn : shouldNotRetry e = true) :
    (parseWithRetries (resolveConfig cfg) f2).result = Except.error e
      ∧ (parseWithRetries (resolveConfig cfg) f2).attempts = 1 := by
  have hpos := resolveConfig_maxRetries_pos cfg
  cases hmr : (resolveConfig cfg).maxRetries with
  | zero => omega
  | succ m =>
    simp [parseWithRetries, hmr, parseWithRetriesGo, h1, hsn]

/-- C2: a fetch makes at most `maxRetries` (default 3) attempts, waits
`retryDelay` (default 1000ms) between consecutive attempts, and retries only
retryable failures: two 500 failures followed by a success return the
document after exactly 3 attempts (2 delays, 2000ms waited), while a 404
(like every 4xx other than 429) aborts after exactly 1 attempt with the
error surfaced. -/
theorem retry_policy (cfg : RSSParserConfig) (fetch fetchA fetchB : Nat → FetchOutcome)
    (doc : RawFeed) (eA eB : FetchError)
    (hA1 : fetchA 1 = FetchOutcome.err eA) (hA2 : fetchA 2 = FetchOutcome.err eA)
    (hA3 : fetchA 3 = FetchOutcome.ok doc)
    (hAs : eA.status = some 500) (hAr : shouldNotRetry eA = false)
    (hB1 : fetchB 1 = FetchOutcome.err eB) (hBs : eB.status = some 404) :
    (parseWithRetries (resolveConfig cfg) fetch).attempts ≤ (resolveConfig cfg).maxRetries
    ∧ (∀ (f2 : Nat → FetchOutcome) (e : FetchError),
        f2 1 = FetchOutcome.err e → shouldNotRetry e = true →
        (parseWithRetries (resolveConfig cfg) f2).result = Except.error e
          ∧ (parseWithRetries (resolveConfig cfg) f2).attempts = 1)
    ∧ (∀ (e : FetchError) (s : Nat), e.status = some s → 400 ≤ s → s < 500 → s ≠ 429 →
        shouldNotRetry e = true)
    ∧ (resolveConfig {}).maxRetries = 3
    ∧ (resolveConfig {}).retryDelay = 1000
    ∧ parseWithRetries (resolveConfig {}) fetchA
        = { result := Except.ok doc, attempts := 3, delays := 2, waitedMs := 2000 }
    ∧ (parseWithRetries (resolveConfig {}) fetchB).result = Except.error eB
    ∧ (parseWithRetries (resolveConfig {}) fetchB).attempts = 1
    ∧ (parseWithRetries (resolveConfig {}) fetchB).delays = 0 := by
  have hBsn : shouldNotRetry eB = true :=
    shouldNotRetry_of_4xx eB 404 hBs (by omega) (by omega) (by omega)
  refine ⟨?_, ?_, ?_, rfl, rfl, ?_, ?_, ?_, ?_⟩
  · have := go_attempts_le fetch (resolveConfig cfg).maxRetries
      (resolveConfig cfg).retryDelay (resolveConfig cfg).maxRetries none 1
    simpa [parseWithRetries] using this
  · intro f2 e h1 hsn
    exact nonretryable_first_attempt cfg f2 e h1 hsn
  · intro e s hst hle hlt hne
    exact shouldNotRetry_of_4xx e s hst hle hlt hne
  · simp [parseWithRetries, resolveConfig, orNum, parseWithRetriesGo,
      hA1, hA2, hA3, hAr]
  · exact (nonretryable_first_attempt {} fetchB eB hB1 hBsn).1
  · exact (nonretryable_first_attempt {} fetchB eB hB1 hBsn).2
  · simp [parseWithRetries, resolveConfig, orNum, parseWithRetriesGo, hB1, hBsn]

/-- Witness for `retry_policy` at a concrete network schedule. -/
theorem retry_policy_witness :
    parseWithRetries (resolveConfig {}) wFetchA
      = { result := Except.ok wDoc, attempts := 3, delays := 2, waitedMs := 2000 }
    ∧ (parseWithRetries (resolveConfig {}) wFetchB).result = Except.error wErrB
    ∧ (parseWithRetries (resolveConfig {}) wFetchB).attempts = 1 := by
  have h := retry_policy {} wFetchA wFetchA wFetchB wDoc wErrA wErrB
    (by decide) (by decide) (by decide) (by decide) (by decide) (by decide) (by decide)
  obtain ⟨-, -, -, -, -, h6, h7, h8, -⟩ := h
  exact ⟨h6, h7, h8⟩

/-- C10: for every input URL and every fetch/parse outcome (thrown network,
HTTP and parse errors included), `validateFeed` resolves to a
`FeedValidationResult` — failures are reported through the
`{isValid:false, error, errorType, statusCode?}` shape of the returned value,
never thrown; a syntactically invalid URL is reported as `INVALID_URL` with
zero network attempts. -/
theorem validateFeed_total_shape (cfg : RSSParserConfig) (up : String → Option UrlParts)
    (fetch : Nat → FetchOutcome) (url : String) :
    ((validateFeed cfg up fetch url).1.isValid = true
        ∧ (validateFeed cfg up fetch url).1.error = none
      ∨ (validateFeed cfg up fetch url).1.isValid = false
        ∧ ((validateFeed cfg up fetch url).1.error).isSome = true
        ∧ ((validateFeed cfg up fetch url).1.errorType).isSome = true)
    ∧ (isValidUrl up url = false →
        (validateFeed cfg up fetch url).2 = 0
        ∧ (validateFeed cfg up fetch url).1.isValid = false
        ∧ (validateFeed cfg up fetch url).1.errorType = some RSSErrorType.INVALID_URL) := by
  by_cases hv : isValidUrl up url
  · cases hres : (parseWithRetries (resolveConfig cfg) fetch).result with
    | ok feed =>
      constructor
      · left
        simp [validateFeed, hv, hres]
      · intro hf
        rw [hv] at hf
        simp at hf
    | error e =>
      constructor
      · right
        simp [validateFeed, hv, hres]
      · intro hf
        rw [hv] at hf
        simp at hf
  · simp only [Bool.not_eq_true] at hv
    constructor
    · right
      simp [validateFeed, hv]
    · intro _
      simp [validateFeed, hv]

/-- Witness for `validateFeed_total_shape` on a malformed URL. -/
theorem validateFeed_total_shape_witness :
    (validateFeed {} (fun _ => none) wFetchB "not-a-url").2 = 0
    ∧ (validateFeed {} (fun _ => none) wFetchB "not-a-url").1.isValid = false
    ∧ (validateFeed {} (fun _ => none) wFetchB "not-a-url").1.errorType
        = some RSSErrorType.INVALID_URL := by
  have h := validateFeed_total_shape {} (fun _ => none) wFetchB "not-a-url"
  exact h.2 (by decide)

/-- C3: for a feed present in storage, a refresh whose fetch/parse step fails
returns (does not throw) `RefreshResult{success:false, newArticleCount:0,
error}` carrying the classified error message (every `parseFeed` failure
message has the classified `TYPE: message` form); for a feed id absent from
storage the call fails with the feed-not-found error instead of a result
record. -/
theorem refresh_failure_reported (env : Env) (sa sf : Option String)
    (st : StorageState) (fid : String) :
    (∀ feed msg, st.feeds.find? (fun f => f.id == fid) = some feed →
      parseFeed env.cfg env.urlParse (env.fetch feed.url) feed.url env.now
        = Except.error msg →
      refreshFeed env sa sf st fid =
        Except.ok (st, { feedId := fid, success := false, newArticleCount := 0
                         error := some msg }))
    ∧ (st.feeds.find? (fun f => f.id == fid) = none →
        refreshFeed env sa sf st fid
          = Except.error ("Feed with ID " ++ fid ++ " not found"))
    ∧ (∀ (cfg : RSSParserConfig) (up : String → Option UrlParts)
        (f : Nat → FetchOutcome) (u : String) (n : Nat) (msg : String),
        parseFeed cfg up f u n = Except.error msg →
        ∃ info : RSSParsingError, msg = thrownMessage info) := by
  refine ⟨?_, ?_, ?_⟩
  · intro feed msg hfind hparse
    simp [refreshFeed, hfind, hparse]
  · intro hfind
    simp [refreshFeed, hfind]
  · intro cfg up f u n msg h
    by_cases hv : isValidUrl up u
    · simp only [parseFeed, hv, Bool.not_true, Bool.false_eq_true, if_false] at h
      cases hres : (parseWithRetries (resolveConfig cfg) f).result with
      | ok raw => rw [hres] at h; simp at h
      | error e =>
        rw [hres] at h
        simp only [Except.error.injEq] at h
        exact ⟨classifyError e, h.symm⟩
    · simp only [Bool.not_eq_true] at hv
      simp only [parseFeed, hv, Bool.not_false, if_true, Except.error.injEq] at h
      exact ⟨classifyError invalidUrlFetchError, h.symm⟩

/-- Witness for `refresh_failure_reported`: a present feed whose parse fails
yields a failure result with the classified message; an absent id throws. -/
theorem refresh_failure_reported_witness :
    refreshFeed wEnvBad none none wSt1 "f1"
      = Except.ok (wSt1,
          { feedId := "f1", success := false, newArticleCount := 0
            error := some "NETWORK_ERROR: Invalid URL format - must be a valid HTTP or HTTPS URL" })
    ∧ refreshFeed wEnvBad none none wSt1 "zz"
      = Except.error "Feed with ID zz not found" := by
  constructor
  · exact (refresh_failure_reported wEnvBad none none wSt1 "f1").1 wFeed1 _ rfl rfl
  · exact (refresh_failure_reported wEnvBad none none wSt1 "zz").2.1 rfl

/-- Shape of a fully successful `refreshFeed` (feed found, parse ok, both
saves succeed): articles are appended and the feed record is updated in
place. -/
theorem refreshFeed_ok_shape (env : Env) (st : StorageState) (fid : String)
    (feed : Feed) (pf : ParsedFeed)
    (hfind : st.feeds.find? (fun f => f.id == fid) = some feed)
    (hparse : parseFeed env.cfg env.urlParse (env.fetch feed.url) feed.url env.now
      = Except.ok pf) :
    refreshFeed env none none st fid =
      Except.ok
        ({ feeds := st.feeds.set (st.feeds.findIdx (fun f => f.id == fid))
             (refreshedFeed feed env.now
               (assignIds env.genId feed.id 0
                 (reconcileNew st.articles fid pf.articles)).length)
           articles := st.articles
             ++ assignIds env.genId feed.id 0 (reconcileNew st.articles fid pf.articles) },
         { feedId := fid, success := true
           newArticleCount := (assignIds env.genId feed.id 0
             (reconcileNew st.articles fid pf.articles)).length
           error := none }) := by
  by_cases hlen :
      0 < (assignIds env.genId feed.id 0 (reconcileNew st.articles fid pf.articles)).length
  · simp [refreshFeed, hfind, hparse, hlen, refreshedFeed]
  · have hnil : assignIds env.genId feed.id 0 (reconcileNew st.articles fid pf.articles)
        = [] := by
      cases hx : assignIds env.genId feed.id 0 (reconcileNew st.articles fid pf.articles) with
      | nil => rfl
      | cons a t => rw [hx] at hlen; simp at hlen
    simp [refreshFeed, hfind, hparse, hnil, refreshedFeed]

/-- C7: reconciliation returns exactly the parsed articles whose dedup key
(url) is absent among the target feed's own stored articles, in the parsed
input's relative order; stored articles of other feeds never suppress
ingestion, and a successful refresh appends exactly that reconciled set. -/
theorem reconcile_exact_scoped_ordered (arts : List Article) (fid : String)
    (parsed : List ParsedArticle) :
    List.Sublist (reconcileNew arts fid parsed) parsed
    ∧ (∀ pa, pa ∈ reconcileNew arts fid parsed ↔
        pa ∈ parsed ∧ ¬ pa.url ∈ existingUrlsFor arts fid)
    ∧ (∀ pa ∈ parsed, ¬ pa.url ∈ existingUrlsFor arts fid →
        pa ∈ reconcileNew arts fid parsed)
    ∧ (∀ (env : Env) (st : StorageState) (feed : Feed) (pf : ParsedFeed)
        (st2 : StorageState) (r : RefreshResult),
        st.feeds.find? (fun f => f.id == fid) = some feed →
        parseFeed env.cfg env.urlParse (env.fetch feed.url) feed.url env.now
          = Except.ok pf →
        refreshFeed env none none st fid = Except.ok (st2, r) →
        st2.articles = st.articles
          ++ assignIds env.genId feed.id 0 (reconcileNew st.articles fid pf.articles)) := by
  have hmem : ∀ pa, pa ∈ reconcileNew arts fid parsed ↔
      pa ∈ parsed ∧ ¬ pa.url ∈ existingUrlsFor arts fid := by
    intro pa
    simp only [reconcileNew, List.mem_filter, Bool.not_eq_true', ← hasUrl_iff]
    constructor
    · intro ⟨h1, h2⟩
      exact ⟨h1, by simp [h2]⟩
    · intro ⟨h1, h2⟩
      exact ⟨h1, by simp at h2; exact h2⟩
  refine ⟨List.filter_sublist _, hmem, ?_, ?_⟩
  · intro pa hpa hnot
    exact (hmem pa).mpr ⟨hpa, hnot⟩
  · intro env st feed pf st2 r hfind hparse hrun
    rw [refreshFeed_ok_shape env st fid feed pf hfind hparse] at hrun
    simp only [Except.ok.injEq, Prod.mk.injEq] at hrun
    rw [← hrun.1]

/-- Witness for `reconcile_exact_scoped_ordered`: url `a` (stored for `f1`)
is suppressed, url `b` (stored only for the other feed `f2`) is ingested for
`f1`, and the refresh appends exactly the reconciled set. -/
theorem reconcile_exact_scoped_ordered_witness :
    wPB ∈ reconcileNew wStC7.articles "f1" wPfC7.articles
    ∧ wOutC7.1.articles = wStC7.articles
        ++ assignIds wEnvOk.genId wFeed1.id 0
          (reconcileNew wStC7.articles "f1" wPfC7.articles) := by
  constructor
  · exact (reconcile_exact_scoped_ordered wStC7.articles "f1" wPfC7.articles).2.2.1
      wPB (by decide) (by decide)
  · exact (reconcile_exact_scoped_ordered wStC7.articles "f1" wPfC7.articles).2.2.2
      wEnvOk wStC7 wFeed1 wPfC7 wOutC7.1 wOutC7.2 rfl rfl rfl

/-- Counterexample to C1: the stored `Article` shape keeps no guid and
reconciliation never consults guids. After ingesting the entry with guid `g`
under url `/1`, a refresh serving the same guid `g` under url `/2` ingests it
again (`newArticleCount = 1`), although the claim says a guid match prevents
re-ingestion even when the url differs. -/
theorem guid_not_dedup_key_cex :
    c1SecondCount = some 1
    ∧ c1FirstOut.articles.map (fun a => a.url) = ["http://e.com/1"]
    ∧ wItemG1.guid = some "g"
    ∧ wItemG2.guid = some "g"
    ∧ wItemG2.link = some "http://e.com/2" := by
  refine ⟨by decide, by decide, rfl, rfl, rfl⟩

/-- C1 (amended): reconciliation dedups solely by canonical url — stored
articles retain no guid and the guid of a parsed article never influences
the reconciled set (changing guids arbitrarily commutes with reconciliation),
and a successful refresh reports exactly the count of parsed articles whose
url is absent among the feed's stored urls. -/
theorem dedup_by_url_only (arts : List Article) (fid : String)
    (parsed : List ParsedArticle) (g : ParsedArticle → Option String) :
    reconcileNew arts fid (parsed.map (fun pa => { pa with guid := g pa }))
      = (reconcileNew arts fid parsed).map (fun pa => { pa with guid := g pa })
    ∧ (∀ (env : Env) (st : StorageState) (feed : Feed) (pf : ParsedFeed)
        (st2 : StorageState) (r : RefreshResult),
        st.feeds.find? (fun f => f.id == fid) = some feed →
        parseFeed env.cfg env.urlParse (env.fetch feed.url) feed.url env.now
          = Except.ok pf →
        refreshFeed env none none st fid = Except.ok (st2, r) →
        r.newArticleCount = (pf.articles.filter
          (fun pa => !(hasUrl (existingUrlsFor st.articles fid) pa.url))).length) := by
  constructor
  · have hcomm : ∀ (l : List ParsedArticle),
        (l.map (fun pa => { pa with guid := g pa })).filter
            (fun pa => !(hasUrl (existingUrlsFor arts fid) pa.url))
          = (l.filter (fun pa => !(hasUrl (existingUrlsFor arts fid) pa.url))).map
              (fun pa => { pa with guid := g pa }) := by
      intro l
      induction l with
      | nil => rfl
      | cons pa rest ih =>
        by_cases hp : hasUrl (existingUrlsFor arts fid) pa.url
        · simp only [List.map_cons, List.filter_cons]
          simp [hp, ih]
        · simp only [List.map_cons, List.filter_cons]
          simp [hp, ih]
    exact hcomm parsed
  · intro env st feed pf st2 r hfind hparse hrun
    rw [refreshFeed_ok_shape env st fid feed pf hfind hparse] at hrun
    simp only [Except.ok.injEq, Prod.mk.injEq] at hrun
    rw [← hrun.2]
    simp only [assignIds_length]
    rfl

/-- Witness for `dedup_by_url_only` at the concrete scenario of `wStC7`. -/
theorem dedup_by_url_only_witness :
    reconcileNew wStC7.articles "f1"
        (wPfC7.articles.map (fun pa => { pa with guid := some "g" }))
      = (reconcileNew wStC7.articles "f1" wPfC7.articles).map
          (fun pa => { pa with guid := some "g" })
    ∧ wOutC7.2.newArticleCount = (wPfC7.articles.filter
        (fun pa => !(hasUrl (existingUrlsFor wStC7.articles "f1") pa.url))).length := by
  have h := dedup_by_url_only wStC7.articles "f1" wPfC7.articles (fun _ => some "g")
  exact ⟨h.1, h.2 wEnvOk wStC7 wFeed1 wPfC7 wOutC7.1 wOutC7.2 rfl rfl rfl⟩

/-- Counterexample to C5: when the article save succeeds but the feed-record
save then throws, the catch block reports `newArticleCount = 0` although 3
articles were appended to storage by this refresh. -/
theorem newCount_partial_write_cex :
    c5out.map (fun p => p.1.articles.length) = some 3
    ∧ c5out.map (fun p => p.2.newArticleCount) = some 0
    ∧ c5out.map (fun p => p.2.success) = some false
    ∧ wSt1.articles.length = 0 := by
  refine ⟨by decide, by decide, by decide, rfl⟩

/-- C5 (amended): as long as the feed-metadata save does not fail (the
article save may fail or succeed, and parse may fail), `newArticleCount`
equals the number of articles the refresh appended to storage, and the
appended articles all belong to the refreshed feed. A feed-save failure
after a successful article save breaks the equality (see the
counterexample). -/
theorem newCount_matches_appended (env : Env) (sa : Option String)
    (st : StorageState) (fid : String) (st2 : StorageState) (r : RefreshResult)
    (h : refreshFeed env sa none st fid = Except.ok (st2, r)) :
    st2.articles.length = st.articles.length + r.newArticleCount
    ∧ st2.articles.take st.articles.length = st.articles
    ∧ (∀ a ∈ st2.articles.drop st.articles.length, a.feedId = fid) := by
  cases hfind : st.feeds.find? (fun f => f.id == fid) with
  | none => simp [refreshFeed, hfind] at h
  | some feed =>
    have hfid : feed.id = fid := by
      have := List.find?_some hfind
      exact beq_iff_eq.mp this
    cases hparse : parseFeed env.cfg env.urlParse (env.fetch feed.url) feed.url env.now with
    | error msg =>
      simp only [refreshFeed, hfind, hparse, Except.ok.injEq, Prod.mk.injEq] at h
      obtain ⟨hst, hr⟩ := h
      subst hst
      rw [← hr]
      simp
    | ok pf =>
      cases sa with
      | none =>
        rw [refreshFeed_ok_shape env st fid feed pf hfind hparse] at h
        simp only [Except.ok.injEq, Prod.mk.injEq] at h
        obtain ⟨hst, hr⟩ := h
        rw [← hst, ← hr]
        refine ⟨by simp, List.take_left _ _, ?_⟩
        intro a ha
        simp only [List.drop_left] at ha
        rw [← hfid]
        exact (mem_assignIds env.genId feed.id 0 _ a ha).1
      | some m =>
        by_cases hlen : (assignIds env.genId feed.id 0
            (reconcileNew st.articles fid pf.articles)).length > 0
        · simp only [refreshFeed, hfind, hparse, hlen, if_true,
            Except.ok.injEq, Prod.mk.injEq] at h
          obtain ⟨hst, hr⟩ := h
          subst hst
          rw [← hr]
          simp
        · simp only [refreshFeed, hfind, hparse, hlen, if_false,
            Except.ok.injEq, Prod.mk.injEq] at h
          obtain ⟨hst, hr⟩ := h
          have hna : (assignIds env.genId feed.id 0
              (reconcileNew st.articles fid pf.articles)).length = 0 := by omega
          rw [← hst, ← hr]
          simp [hna]

/-- Witness for `newCount_matches_appended` at the fully successful refresh
of `wStC7`. -/
theorem newCount_matches_appended_witness :
    wOutC7.1.articles.length = wStC7.articles.length + wOutC7.2.newArticleCount
    ∧ wOutC7.1.articles.take wStC7.articles.length = wStC7.articles := by
  have h := newCount_matches_appended wEnvOk none wStC7 "f1" wOutC7.1 wOutC7.2 rfl
  exact ⟨h.1, h.2.1⟩

/-- Counterexample to C9: `addFeed` saves the feed collection first and the
initial articles second — on a concrete successful add with 3 initial
articles, the write trace is `[feedsWrite, articlesWrite]`, so the claimed
articles-first ordering is false. -/
theorem addFeed_write_order_cex :
    c9trip.2.2.map isFeedsW = [true, false]
    ∧ c9trip.2.2.map isArticlesW = [false, true]
    ∧ articlesBeforeFeed c9trip.2.2 = false
    ∧ c9trip.1.articles.length = 3 := by
  refine ⟨by decide, by decide, by decide, by decide⟩

/-- C9 (amended): in every successful `addFeed` the new feed record is
written to feed storage first and the initial articles (when any) second —
the opposite of the articles-first ordering `refreshFeed` uses — so a crash
between the two writes can leave a feed record whose initial articles are
missing. -/
theorem addFeed_feed_write_first (env : Env) (payload : FeedCreatePayload)
    (st : StorageState) (st2 : StorageState) (feed : Feed) (tr : List StorageWrite)
    (h : addFeed env payload st = Except.ok (st2, feed, tr)) :
    (∃ fs, tr = [StorageWrite.feedsWrite fs])
    ∨ (∃ fs as, tr = [StorageWrite.feedsWrite fs, StorageWrite.articlesWrite as]) := by
  by_cases hv : (validateFeed env.cfg env.urlParse (env.fetch payload.url) payload.url).1.isValid
  · simp only [addFeed, hv, Bool.not_true, Bool.false_eq_true, if_false] at h
    cases hp : parseFeed env.cfg env.urlParse (env.fetch payload.url) payload.url env.now with
    | error m => rw [hp] at h; simp at h
    | ok pf =>
      rw [hp] at h
      by_cases hlen : (assignIds env.genId (env.genId 0) 1 pf.articles).length > 0
      · simp only [hlen, if_true, Except.ok.injEq, Prod.mk.injEq] at h
        right
        exact ⟨_, _, h.2.2.symm⟩
      · simp only [hlen, if_false, Except.ok.injEq, Prod.mk.injEq] at h
        left
        exact ⟨_, h.2.2.symm⟩
  · simp only [Bool.not_eq_true] at hv
    simp [addFeed, hv] at h

/-- Witness for `addFeed_feed_write_first`: in the concrete successful add,
no article write precedes the feed write. -/
theorem addFeed_feed_write_first_witness :
    articlesBeforeFeed c9trip.2.2 = false := by
  have h := addFeed_feed_write_first wEnvOk wPayload { feeds := [], articles := [] }
    c9trip.1 c9trip.2.1 c9trip.2.2 rfl
  rcases h with ⟨fs, hfs⟩ | ⟨fs, as, hfs⟩
  · rw [hfs]
    rfl
  · rw [hfs]
    rfl

/-- C4: refreshing the same feed twice in succession with unchanged upstream
content (same parser config, URL collaborator and network; the clock and id
generator may differ) and no interleaving storage mutation is idempotent —
the second refresh ingests nothing, returns `newArticleCount = 0`, and
leaves the stored article collection unchanged. -/
theorem refresh_idempotent (env env2 : Env) (st st1 st2 : StorageState) (fid : String)
    (r1 r2 : RefreshResult)
    (hc : env2.cfg = env.cfg) (hu : env2.urlParse = env.urlParse)
    (hf : env2.fetch = env.fetch)
    (h1 : refreshFeed env none none st fid = Except.ok (st1, r1))
    (hs : r1.success = true)
    (h2 : refreshFeed env2 none none st1 fid = Except.ok (st2, r2)) :
    r2.newArticleCount = 0 ∧ st2.articles = st1.articles := by
  cases hfind : st.feeds.find? (fun f => f.id == fid) with
  | none => simp [refreshFeed, hfind] at h1
  | some feed =>
    have hfid : feed.id = fid := by
      have hbeq := List.find?_some hfind
      exact beq_iff_eq.mp hbeq
    cases hparse : parseFeed env.cfg env.urlParse (env.fetch feed.url) feed.url env.now with
    | error m =>
      simp only [refreshFeed, hfind, hparse, Except.ok.injEq, Prod.mk.injEq] at h1
      rw [← h1.2] at hs
      simp at hs
    | ok pf =>
      rw [refreshFeed_ok_shape env st fid feed pf hfind hparse] at h1
      simp only [Except.ok.injEq, Prod.mk.injEq] at h1
      obtain ⟨hst1, hr1⟩ := h1
      have hupd : ((refreshedFeed feed env.now
          (assignIds env.genId feed.id 0
            (reconcileNew st.articles fid pf.articles)).length).id == fid) = true := by
        simp [refreshedFeed, hfid]
      have hfind2pre := find?_set_findIdx (fun f => f.id == fid) st.feeds feed
        (refreshedFeed feed env.now
          (assignIds env.genId feed.id 0
            (reconcileNew st.articles fid pf.articles)).length)
        hfind hupd
      have hfeeds1 : st1.feeds = st.feeds.set (st.feeds.findIdx (fun f => f.id == fid))
          (refreshedFeed feed env.now
            (assignIds env.genId feed.id 0
              (reconcileNew st.articles fid pf.articles)).length) := by
        rw [← hst1]
      have harts1 : st1.articles = st.articles
          ++ assignIds env.genId feed.id 0 (reconcileNew st.articles fid pf.articles) := by
        rw [← hst1]
      have hfind2 : st1.feeds.find? (fun f => f.id == fid)
          = some (refreshedFeed feed env.now
              (assignIds env.genId feed.id 0
                (reconcileNew st.articles fid pf.articles)).length) := by
        rw [hfeeds1]
        exact hfind2pre
      obtain ⟨pf2, hp2, hurl2⟩ := parseFeed_ok_other_now env.cfg env.urlParse
        (env.fetch feed.url) feed.url env.now env2.now pf hparse
      have hp2' : parseFeed env2.cfg env2.urlParse
          (env2.fetch (refreshedFeed feed env.now
            (assignIds env.genId feed.id 0
              (reconcileNew st.articles fid pf.articles)).length).url)
          (refreshedFeed feed env.now
            (assignIds env.genId feed.id 0
              (reconcileNew st.articles fid pf.articles)).length).url env2.now
          = Except.ok pf2 := by
        rw [hc, hu, hf]
        exact hp2
      have hrec : reconcileNew st1.articles fid pf2.articles = [] := by
        rw [harts1, hfid]
        exact reconcile_after_ingest st.articles fid pf.articles pf2.articles env.genId 0 hurl2
      rw [refreshFeed_ok_shape env2 st1 fid _ pf2 hfind2 hp2'] at h2
      simp only [Except.ok.injEq, Prod.mk.injEq] at h2
      obtain ⟨hst2, hr2⟩ := h2
      constructor
      · rw [← hr2]
        simp [hrec, assignIds]
      · rw [← hst2]
        simp [hrec, assignIds]

/-- Witness for `refresh_idempotent` at the concrete double refresh of
`wFeed1` (first call ingests 3 articles, second call ingests none). -/
theorem refresh_idempotent_witness :
    c4second.2.newArticleCount = 0 ∧ c4second.1.articles = c4first.1.articles
    ∧ c4first.2.newArticleCount = 3 := by
  have h := refresh_idempotent wEnvOk wEnvOk2 wSt1 c4first.1 c4second.1 "f1"
    c4first.2 c4second.2 rfl rfl rfl rfl (by decide) rfl
  exact ⟨h.1, h.2, by decide⟩

theorem map_id_set_findIdx (l : List Feed) (fid : String) (feed feed' : Feed)
    (hfind : l.find? (fun f => f.id == fid) = some feed) (hid : feed'.id = feed.id) :
    (l.set (l.findIdx (fun f => f.id == fid)) feed').map (fun f => f.id)
      = l.map (fun f => f.id) := by
  rw [List.map_set, hid]
  apply set_self_of_get
  rw [List.getElem?_map (fun f => f.id) l (l.findIdx (fun f => f.id == fid))]
  rw [getElem?_findIdx_of_find? (fun f => f.id == fid) l feed hfind]
  rfl

/-- When the feed id is present, `refreshFeed` always produces a result
record (never a thrown error) and preserves the list of stored feed ids. -/
theorem refreshFeed_total (env : Env) (sa sf : Option String) (st : StorageState)
    (fid : String) (feed : Feed)
    (hfind : st.feeds.find? (fun f => f.id == fid) = some feed) :
    ∃ st2 r, refreshFeed env sa sf st fid = Except.ok (st2, r)
      ∧ st2.feeds.map (fun f => f.id) = st.feeds.map (fun f => f.id)
      ∧ r.feedId = fid := by
  cases hparse : parseFeed env.cfg env.urlParse (env.fetch feed.url) feed.url env.now with
  | error m =>
    exact ⟨st, { feedId := fid, success := false, newArticleCount := 0, error := some m },
      by simp [refreshFeed, hfind, hparse], rfl, rfl⟩
  | ok pf =>
    have hids : ∀ k, (st.feeds.set (st.feeds.findIdx (fun f => f.id == fid))
        (refreshedFeed feed env.now k)).map (fun f => f.id)
          = st.feeds.map (fun f => f.id) := by
      intro k
      exact map_id_set_findIdx st.feeds fid feed _ hfind rfl
    by_cases hlen : (assignIds env.genId feed.id 0
        (reconcileNew st.articles fid pf.articles)).length > 0
    · cases sa with
      | some m =>
        exact ⟨st, { feedId := fid, success := false, newArticleCount := 0, error := some m },
          by simp [refreshFeed, hfind, hparse, hlen], rfl, rfl⟩
      | none =>
        cases sf with
        | some m =>
          refine ⟨StorageState.mk st.feeds (st.articles
              ++ assignIds env.genId feed.id 0 (reconcileNew st.articles fid pf.articles)),
            RefreshResult.mk fid false 0 (some m), ?_, rfl, rfl⟩
          simp [refreshFeed, hfind, hparse, hlen]
        | none =>
          refine ⟨StorageState.mk
              (st.feeds.set (st.feeds.findIdx (fun f => f.id == fid))
                (refreshedFeed feed env.now
                  (assignIds env.genId feed.id 0
                    (reconcileNew st.articles fid pf.articles)).length))
              (st.articles
                ++ assignIds env.genId feed.id 0 (reconcileNew st.articles fid pf.articles)),
            RefreshResult.mk fid true
              (assignIds env.genId feed.id 0
                (reconcileNew st.articles fid pf.articles)).length none,
            refreshFeed_ok_shape env st fid feed pf hfind hparse, ?_, rfl⟩
          exact hids _
    · cases sf with
      | some m =>
        refine ⟨st, RefreshResult.mk fid false 0 (some m), ?_, rfl, rfl⟩
        simp [refreshFeed, hfind, hparse, hlen]
      | none =>
        refine ⟨StorageState.mk
            (st.feeds.set (st.feeds.findIdx (fun f => f.id == fid))
              (refreshedFeed feed env.now
                (assignIds env.genId feed.id 0
                  (reconcileNew st.articles fid pf.articles)).length))
            st.articles,
          RefreshResult.mk fid true
            (assignIds env.genId feed.id 0
              (reconcileNew st.articles fid pf.articles)).length none,
          ?_, ?_, rfl⟩
        · simp [refreshFeed, hfind, hparse, hlen, refreshedFeed]
        · exact hids _

theorem find?_eq_some_of_mem : ∀ (l : List Feed) (fid : String),
    (∃ f ∈ l, f.id = fid) → ∃ feed, l.find? (fun f => f.id == fid) = some feed
  | [], fid, h => by simp at h
  | a :: t, fid, h => by
    by_cases pa : (a.id == fid) = true
    · exact ⟨a, by simp [List.find?, pa]⟩
    · obtain ⟨f, hf, hfid⟩ := h
      rcases List.mem_cons.mp hf with hfa | hft
      · subst hfa
        rw [hfid] at pa
        simp at pa
      · obtain ⟨feed, hfeed⟩ := find?_eq_some_of_mem t fid ⟨f, hft, hfid⟩
        exact ⟨feed, by simp [List.find?, pa, hfeed]⟩

theorem refreshAllGo_complete (env : Env) (sa sf : String → Option String) :
    ∀ (ids : List String) (st : StorageState),
      (∀ fid ∈ ids, ∃ f ∈ st.feeds, f.id = fid) →
      ∃ st2 rs, refreshAllGo env sa sf st ids = Except.ok (st2, rs)
        ∧ rs.map (fun r => r.feedId) = ids
        ∧ st2.feeds.map (fun f => f.id) = st.feeds.map (fun f => f.id)
  | [], st, _ => ⟨st, [], rfl, rfl, rfl⟩
  | fid :: rest, st, hmem => by
    obtain ⟨feed, hfind⟩ := find?_eq_some_of_mem st.feeds fid (hmem fid (by simp))
    obtain ⟨st1, r, hrun, hids1, hrfid⟩ :=
      refreshFeed_total env (sa fid) (sf fid) st fid feed hfind
    have hmem1 : ∀ g ∈ rest, ∃ f ∈ st1.feeds, f.id = g := by
      intro g hg
      obtain ⟨f2, hf2, hfid2⟩ := hmem g (by simp [hg])
      have hgm : g ∈ st1.feeds.map (fun f => f.id) := by
        rw [hids1, ← hfid2]
        exact List.mem_map_of_mem _ hf2
      obtain ⟨f3, hf3, hh⟩ := List.mem_map.mp hgm
      exact ⟨f3, hf3, hh⟩
    obtain ⟨st2, rs, hrun2, hids2, hmap2⟩ :=
      refreshAllGo_complete env sa sf rest st1 hmem1
    refine ⟨st2, r :: rs, ?_, ?_, ?_⟩
    · simp [refreshAllGo, hrun, hrun2]
    · simp [hids2, hrfid]
    · rw [hmap2, hids1]

/-- C6: `refreshAllFeeds` loads all feeds, refreshes exactly those with
`isActive = true`, always completes with one result per active feed (in
order, regardless of individual failures), and the aggregate built from its
results has `totalNew` = sum of successful `newArticleCount` and
`totalErrors` = count of `success:false` results. -/
theorem refreshAll_per_feed_results (env : Env) (sa sf : String → Option String)
    (st : StorageState) :
    ∃ st2 rs, refreshAllFeeds env sa sf st = Except.ok (st2, rs)
      ∧ rs.map (fun r => r.feedId)
          = (st.feeds.filter (fun f => f.isActive)).map (fun f => f.id)
      ∧ (mkBatchRefreshResult rs).results = rs
      ∧ (mkBatchRefreshResult rs).totalNew
          = ((rs.filter (fun r => r.success)).map (fun r => r.newArticleCount)).sum
      ∧ (mkBatchRefreshResult rs).totalErrors
          = (rs.filter (fun r => !r.success)).length := by
  have hmem : ∀ fid ∈ (st.feeds.filter (fun f => f.isActive)).map (fun f => f.id),
      ∃ f ∈ st.feeds, f.id = fid := by
    intro fid h
    obtain ⟨f, hf, hfid⟩ := List.mem_map.mp h
    exact ⟨f, (List.mem_filter.mp hf).1, hfid⟩
  obtain ⟨st2, rs, hrun, hids, hmap⟩ := refreshAllGo_complete env sa sf
    ((st.feeds.filter (fun f => f.isActive)).map (fun f => f.id)) st hmem
  exact ⟨st2, rs, hrun, hids, rfl, rfl, rfl⟩

theorem pairwiseKeysOk_iff : ∀ (arts : List Article),
    pairwiseKeysOk arts = true ↔ KeyPairwise arts
  | [] => by simp [pairwiseKeysOk, KeyPairwise]
  | a :: rest => by
    simp only [pairwiseKeysOk, KeyPairwise, List.pairwise_cons, Bool.and_eq_true,
      List.all_eq_true]
    rw [← KeyPairwise, ← pairwiseKeysOk_iff rest]
    constructor
    · intro ⟨h1, h2⟩
      refine ⟨?_, h2⟩
      intro b hb hc
      have := h1 b hb
      simp [hc.1, hc.2] at this
    · intro ⟨h1, h2⟩
      refine ⟨?_, h2⟩
      intro b hb
      have := h1 b hb
      simp only [Bool.not_eq_true', Bool.and_eq_false_iff]
      by_cases hf : a.feedId = b.feedId
      · right
        simp only [beq_eq_false_iff_ne, ne_eq]
        intro hu
        exact this ⟨hf, hu⟩
      · left
        simp only [beq_eq_false_iff_ne, ne_eq]
        exact hf

/-- Appending a reconciled-and-ingested batch with pairwise-distinct urls
preserves the storage invariant. -/
theorem keyInv_append_ingest (arts : List Article) (fid : String)
    (parsed : List ParsedArticle) (g : Nat → String) (k : Nat)
    (hinv : KeyPairwise arts)
    (hnodup : (parsed.map (fun pa => pa.url)).Nodup) :
    KeyPairwise (arts ++ assignIds g fid k (reconcileNew arts fid parsed)) := by
  rw [KeyPairwise, List.pairwise_append]
  refine ⟨hinv, ?_, ?_⟩
  · have hurls : ((assignIds g fid k (reconcileNew arts fid parsed)).map
        (fun a => a.url)).Nodup := by
      rw [assignIds_urls]
      have hsub : List.Sublist ((reconcileNew arts fid parsed).map (fun pa => pa.url))
          (parsed.map (fun pa => pa.url)) := (List.filter_sublist parsed).map _
      exact hnodup.sublist hsub
    have hpw := List.pairwise_map.mp hurls
    exact hpw.imp (fun h hc => h hc.2)
  · intro a ha b hb
    obtain ⟨hbfid, hburl⟩ := mem_assignIds g fid k _ b hb
    intro hcon
    obtain ⟨hfeq, hueq⟩ := hcon
    obtain ⟨pb, hpb, hpburl⟩ := List.mem_map.mp hburl
    simp only [reconcileNew, List.mem_filter] at hpb
    have hnot : hasUrl (existingUrlsFor arts fid) pb.url = false := by
      simpa using hpb.2
    have hmem : a.url ∈ existingUrlsFor arts fid := by
      apply List.mem_map_of_mem
      apply List.mem_filter.mpr
      refine ⟨ha, ?_⟩
      simp [hfeq, hbfid]
    have htrue : hasUrl (existingUrlsFor arts fid) pb.url = true := by
      apply (hasUrl_iff _ _).mpr
      rw [hpburl, ← hueq]
      exact hmem
    rw [hnot] at htrue
    exact Bool.false_ne_true htrue

/-- Appending a batch for a fresh feed id with pairwise-distinct urls
preserves the storage invariant. -/
theorem keyInv_append_fresh (arts : List Article) (fid : String)
    (parsed : List ParsedArticle) (g : Nat → String) (k : Nat)
    (hinv : KeyPairwise arts)
    (hnodup : (parsed.map (fun pa => pa.url)).Nodup)
    (hfresh : ∀ a ∈ arts, a.feedId ≠ fid) :
    KeyPairwise (arts ++ assignIds g fid k parsed) := by
  rw [KeyPairwise, List.pairwise_append]
  refine ⟨hinv, ?_, ?_⟩
  · have hurls : ((assignIds g fid k parsed).map (fun a => a.url)).Nodup := by
      rw [assignIds_urls]
      exact hnodup
    have hpw := List.pairwise_map.mp hurls
    exact hpw.imp (fun h hc => h hc.2)
  · intro a ha b hb
    obtain ⟨hbfid, _⟩ := mem_assignIds g fid k _ b hb
    intro hcon
    exact hfresh a ha (hcon.1.trans hbfid)

theorem refreshFeed_preserves_keyInv (env : Env) (sa sf : Option String)
    (st st2 : StorageState) (fid : String) (r : RefreshResult)
    (hnd : ParsedUrlsNodup env) (hinv : KeyPairwise st.articles)
    (h : refreshFeed env sa sf st fid = Except.ok (st2, r)) :
    KeyPairwise st2.articles := by
  cases hfind : st.feeds.find? (fun f => f.id == fid) with
  | none => simp [refreshFeed, hfind] at h
  | some feed =>
    have hfid : feed.id = fid := by
      have hbeq := List.find?_some hfind
      exact beq_iff_eq.mp hbeq
    cases hparse : parseFeed env.cfg env.urlParse (env.fetch feed.url) feed.url env.now with
    | error m =>
      simp only [refreshFeed, hfind, hparse, Except.ok.injEq, Prod.mk.injEq] at h
      rw [← h.1]
      exact hinv
    | ok pf =>
      have hnodup := hnd feed.url env.now pf hparse
      have happ : KeyPairwise (st.articles
          ++ assignIds env.genId feed.id 0 (reconcileNew st.articles fid pf.articles)) := by
        rw [hfid]
        exact keyInv_append_ingest st.articles fid pf.articles env.genId 0 hinv hnodup
      by_cases hlen : (assignIds env.genId feed.id 0
          (reconcileNew st.articles fid pf.articles)).length > 0
      · cases sa with
        | some m =>
          simp only [refreshFeed, hfind, hparse, hlen, if_true, Except.ok.injEq,
            Prod.mk.injEq] at h
          rw [← h.1]
          exact hinv
        | none =>
          cases sf with
          | some m =>
            simp only [refreshFeed, hfind, hparse, hlen, if_true, Except.ok.injEq,
              Prod.mk.injEq] at h
            rw [← h.1]
            exact happ
          | none =>
            rw [refreshFeed_ok_shape env st fid feed pf hfind hparse] at h
            simp only [Except.ok.injEq, Prod.mk.injEq] at h
            rw [← h.1]
            exact happ
      · cases sf with
        | some m =>
          simp only [refreshFeed, hfind, hparse, hlen, if_false, Except.ok.injEq,
            Prod.mk.injEq] at h
          rw [← h.1]
          exact hinv
        | none =>
          simp only [refreshFeed, hfind, hparse, hlen, if_false, Except.ok.injEq,
            Prod.mk.injEq] at h
          rw [← h.1]
          exact hinv

theorem addFeed_preserves_keyInv (env : Env) (payload : FeedCreatePayload)
    (st st2 : StorageState) (feed : Feed) (tr : List StorageWrite)
    (hnd : ParsedUrlsNodup env) (hinv : KeyPairwise st.articles)
    (hfresh : ∀ a ∈ st.articles, a.feedId ≠ env.genId 0)
    (h : addFeed env payload st = Except.ok (st2, feed, tr)) :
    KeyPairwise st2.articles := by
  by_cases hv : (validateFeed env.cfg env.urlParse (env.fetch payload.url) payload.url).1.isValid
  · simp only [addFeed, hv, Bool.not_true, Bool.false_eq_true, if_false] at h
    cases hp : parseFeed env.cfg env.urlParse (env.fetch payload.url) payload.url env.now with
    | error m => rw [hp] at h; simp at h
    | ok pf =>
      rw [hp] at h
      have hnodup := hnd payload.url env.now pf hp
      by_cases hlen : (assignIds env.genId (env.genId 0) 1 pf.articles).length > 0
      · simp only [hlen, if_true, Except.ok.injEq, Prod.mk.injEq] at h
        rw [← h.1]
        exact keyInv_append_fresh st.articles (env.genId 0) pf.articles env.genId 1
          hinv hnodup hfresh
      · simp only [hlen, if_false, Except.ok.injEq, Prod.mk.injEq] at h
        rw [← h.1]
        exact hinv
  · simp only [Bool.not_eq_true] at hv
    simp [addFeed, hv] at h

theorem refreshAllGo_preserves_keyInv (env : Env) (sa sf : String → Option String)
    (hnd : ParsedUrlsNodup env) :
    ∀ (ids : List String) (st st2 : StorageState) (rs : List RefreshResult),
      KeyPairwise st.articles →
      refreshAllGo env sa sf st ids = Except.ok (st2, rs) →
      KeyPairwise st2.articles
  | [], st, st2, rs, hinv, h => by
    simp only [refreshAllGo, Except.ok.injEq, Prod.mk.injEq] at h
    rw [← h.1]
    exact hinv
  | fid :: rest, st, st2, rs, hinv, h => by
    cases h1 : refreshFeed env (sa fid) (sf fid) st fid with
    | error e => simp [refreshAllGo, h1] at h
    | ok p =>
      obtain ⟨st1, r⟩ := p
      cases h2 : refreshAllGo env sa sf st1 rest with
      | error e => simp [refreshAllGo, h1, h2] at h
      | ok q =>
        obtain ⟨stq, rsq⟩ := q
        have hinv1 := refreshFeed_preserves_keyInv env (sa fid) (sf fid) st st1 fid r
          hnd hinv h1
        have hrec := refreshAllGo_preserves_keyInv env sa sf hnd rest st1 stq rsq hinv1 h2
        simp only [refreshAllGo, h1, h2, Except.ok.injEq, Prod.mk.injEq] at h
        rw [← h.1]
        exact hrec

/-- Counterexample to C8: `addFeed` over empty storage with a parsed
document that contains the same url twice stores two articles with the same
`feedId` and url, violating the at-most-one-per-key invariant. -/
theorem dup_keys_break_invariant_cex :
    c8out.map (fun s => pairwiseKeysOk s.articles) = some false
    ∧ c8out.map (fun s => s.articles.map (fun a => (a.feedId, a.url)))
        = some [("id0", "http://e.com/a"), ("id0", "http://e.com/a")]
    ∧ pairwiseKeysOk ([] : List Article) = true := by
  refine ⟨by decide, by decide, rfl⟩

/-- C8 (amended): provided every document the environment serves parses to
articles with pairwise-distinct urls (and, for `addFeed`, the generated feed
id is fresh for the stored articles), each engine operation — `refreshFeed`,
`addFeed`, `refreshAllFeeds` — preserves the invariant of at most one stored
article per `feedId` and dedup key (url). A document repeating one url
breaks it (see the counterexample). -/
theorem key_invariant_preserved (env : Env) (st : StorageState)
    (hnd : ParsedUrlsNodup env) (hinv : KeyPairwise st.articles) :
    (∀ (sa sf : Option String) (fid : String) (st2 : StorageState) (r : RefreshResult),
      refreshFeed env sa sf st fid = Except.ok (st2, r) → KeyPairwise st2.articles)
    ∧ (∀ (payload : FeedCreatePayload) (st2 : StorageState) (feed : Feed)
        (tr : List StorageWrite),
        (∀ a ∈ st.articles, a.feedId ≠ env.genId 0) →
        addFeed env payload st = Except.ok (st2, feed, tr) → KeyPairwise st2.articles)
    ∧ (∀ (sa sf : String → Option String) (st2 : StorageState) (rs : List RefreshResult),
        refreshAllFeeds env sa sf st = Except.ok (st2, rs) → KeyPairwise st2.articles) := by
  refine ⟨?_, ?_, ?_⟩
  · intro sa sf fid st2 r h
    exact refreshFeed_preserves_keyInv env sa sf st st2 fid r hnd hinv h
  · intro payload st2 feed tr hfresh h
    exact addFeed_preserves_keyInv env payload st st2 feed tr hnd hinv hfresh h
  · intro sa sf st2 rs h
    exact refreshAllGo_preserves_keyInv env sa sf hnd _ st st2 rs hinv h

/-- Every document `wEnvOk` serves parses to distinct urls. -/
theorem wEnvOk_nodup : ParsedUrlsNodup wEnvOk := by
  intro u n pf h
  obtain ⟨hv, raw, hres, hpf⟩ := parseFeed_ok_elim wEnvOk.cfg wEnvOk.urlParse
    (wEnvOk.fetch u) u n pf h
  have hraw : raw = wRaw3 := by
    rw [show (parseWithRetries (resolveConfig wEnvOk.cfg) (wEnvOk.fetch u)).result
        = Except.ok wRaw3 from rfl] at hres
    exact (Except.ok.injEq _ _).mp hres.symm
  subst hraw
  rw [hpf]
  simp only [parseArticles_urls]
  decide

/-- Witness for `key_invariant_preserved`: the invariant holds after the
concrete refresh of `wStC7`. -/
theorem key_invariant_preserved_witness :
    KeyPairwise wOutC7.1.articles := by
  have h := key_invariant_preserved wEnvOk wStC7 wEnvOk_nodup
    ((pairwiseKeysOk_iff wStC7.articles).mp (by decide))
  exact h.1 none none "f1" wOutC7.1 wOutC7.2 rfl

end QuietRSS
